import Mathlib

/-!
Verification of the deletion-protection decision engine of
`function-deletion-protection` (src/fn.go, current version).

The engine walks a resource graph (a composite resource, its composed
resources, and externally required resources), decides which resources must
be guarded against deletion, and synthesizes guard records ("Usage" /
"ClusterUsage" documents).  Pure functions of the Go source are embedded as
Lean functions; the two stateful loops of `RunFunction` (the composed pass
and the composite cascade step) are embedded as explicit state-passing
functions over a map `String → Option DesiredValue`, iterated over an
explicit key list (Go map traversal order is not specified, so the key
order is a parameter).
-/

namespace FnProtect

/-- A (possibly namespaced) unstructured Kubernetes-style resource, restricted
to the fields this function ever reads: `apiVersion`, `kind`, `metadata.name`,
`metadata.namespace` (empty string means cluster-scoped, as in Go where
`GetNamespace` returns `""`), `metadata.labels` (absent or a string map), and
`extra`, an opaque stand-in for all remaining content of the object
(annotations, spec, status, ...), which the synthesizer must not read. -/
structure Resource where
  apiVersion : String
  kind : String
  name : String
  nspace : String
  labels : Option (List (String × String))
  extra : List (String × String)
deriving DecidableEq, Repr

/-- A synthesized guard record (the flattened form of the `map[string]any`
usage document built by `GenerateV2Usage` / `GenerateV1Usage`): apiVersion,
kind, `metadata.name`, optional `metadata.namespace`, the `spec.of` reference
(apiVersion, kind, resourceRef.name) and `spec.reason`. -/
structure UsageDoc where
  apiVersion : String
  kind : String
  metaName : String
  metaNspace : Option String
  ofApiVersion : String
  ofKind : String
  ofName : String
  reason : String
deriving DecidableEq, Repr

/-- Label key enabling deletion protection (src/fn.go). -/
def ProtectionLabelBlockDeletion : String := "protection.fn.crossplane.io/block-deletion"

/-- `protectionv1beta1.Group + "/" + protectionv1beta1.Version`. -/
def ProtectionGroupVersion : String := "protection.crossplane.io/v1beta1"

/-- Common prefix of all reason strings (src/fn.go). -/
def ProtectionReason : String := "created by function-deletion-protection "

/-- Reason used when a resource carries the enabling label. -/
def ProtectionReasonLabel : String :=
  ProtectionReason ++ "via label " ++ ProtectionLabelBlockDeletion

/-- Reason used for the composite when a composed resource is protected. -/
def ProtectionReasonCompositeChildResource : String :=
  ProtectionReason ++ "because a composed resource is protected"

/-- Reason used for labeled required resources. -/
def ProtectionReasonOperation : String :=
  ProtectionReason ++ "by an Operation"

/-- Reason used for watched required resources. -/
def ProtectionReasonWatchOperation : String :=
  ProtectionReason ++ "by a WatchOperation"

/-- `apiextensionsv1beta1.Group + "/" + apiextensionsv1beta1.Version`. -/
def ProtectionV1GroupVersion : String := "apiextensions.crossplane.io/v1beta1"

/-- Suffix applied when generating Usage names (src/fn.go). -/
def UsageNameSuffix : String := "fn-protection"

/-- The distinguished requirement-group identifier marking watched resources. -/
def RequirementsNameWatchedResource : String := "ops.crossplane.io/watched-resource"

/-- `protectionv1beta1.ClusterUsageKind`. -/
def ClusterUsageKind : String := "ClusterUsage"

/-- `protectionv1beta1.UsageKind`. -/
def UsageKind : String := "Usage"

/-- `apiextensionsv1beta1.UsageKind` (the legacy schema's only kind). -/
def V1UsageKind : String := "Usage"

/-- ASCII lower-casing of one character, as Go `strings.ToLower` acts on the
ASCII range (the only range relevant to the strings this function builds
and to the comparison against `"true"`). -/
def asciiLower (c : Char) : Char :=
  if 'A' ≤ c ∧ c ≤ 'Z' then Char.ofNat (c.toNat + 32) else c

/-- Embeds Go `strings.ToLower` (ASCII fragment). -/
def strToLower (s : String) : String := ⟨s.data.map asciiLower⟩

/-- Embeds Go `strings.EqualFold` restricted to ASCII simple folding, which
coincides with full Go fold semantics on every comparison this program
performs (the right-hand side is always the ASCII literal `"true"`, whose
letters have no non-ASCII fold equivalents). -/
def eqFold (a b : String) : Bool := strToLower a == strToLower b

/-- Embeds `u.GetLabels()`: the labels map, nil (empty) when absent. -/
def GetLabels (r : Resource) : List (String × String) := r.labels.getD []

/-- Embeds `ProtectResource` (src/fn.go lines 341-352): a nil resource or nil
object is not protected; otherwise the resource is protected iff the
enabling label key is present and its value case-insensitively equals
`"true"`.  `none` models both a nil pointer and a nil `Object`. -/
def ProtectResource (u : Option Resource) : Bool :=
  match u with
  | none => false
  | some r =>
    let labels := GetLabels r
    match labels.lookup ProtectionLabelBlockDeletion with
    | some val => eqFold val "true"
    | none => false

/-- One hexadecimal digit, lowercase. -/
def hexDigit (n : Nat) : Char :=
  if n < 10 then Char.ofNat (48 + n) else Char.ofNat (87 + n)

/-- Fixed-width big-endian hexadecimal rendering (`w` digits). -/
def toHexFixed : Nat → Nat → List Char
  | 0, _ => []
  | w + 1, n => toHexFixed w (n / 16) ++ [hexDigit (n % 16)]

/-- A 32-bit FNV-1a digest of a string (code points folded in sequence,
arithmetic modulo 2^32). -/
def fnv1a (s : String) : Nat :=
  s.data.foldl (fun h c => ((h ^^^ c.toNat) * 16777619) % 4294967296) 2166136261

/-- Modelled from the spec: the digest behind the generated-name hash is
absent from src/ and the spec leaves the algorithm open ("any stable,
well-distributed hash ... truncated to 6 hex characters"); this model takes
the top 6 hex digits of a 32-bit FNV-1a digest of the input.  What the
development relies on is only that it is a pure function of its string
argument with fixed width 6. -/
def shortHash (s : String) : String := ⟨toHexFixed 6 (fnv1a s / 256)⟩

/-- Modelled from the spec: `GenerateName` is called by `GenerateV2Usage` and
`GenerateV1Usage` (src/fn.go lines 393 and 428) but its definition is not
under src/.  Per spec §4.2 the generated identifier is the input name, a
fixed-width 6-character stable digest, and the protection suffix, joined by
dashes.  Note the call sites pass only the lowercased `kind-name` string and
the suffix, so the digest cannot depend on the namespace. -/
def GenerateName (name suffix : String) : String :=
  name ++ "-" ++ shortHash name ++ "-" ++ suffix

/-- Embeds `GenerateV2Usage` (src/fn.go lines 388-418): a current-schema
guard record; cluster-scoped kind and no namespace field when the target's
namespace is empty, namespaced kind carrying the namespace otherwise. -/
def GenerateV2Usage (u : Resource) (reason : String) : UsageDoc :=
  let name := strToLower (u.kind ++ "-" ++ u.name)
  if u.nspace = "" then
    { apiVersion := ProtectionGroupVersion
      kind := ClusterUsageKind
      metaName := GenerateName name UsageNameSuffix
      metaNspace := none
      ofApiVersion := u.apiVersion
      ofKind := u.kind
      ofName := u.name
      reason := reason }
  else
    { apiVersion := ProtectionGroupVersion
      kind := UsageKind
      metaName := GenerateName name UsageNameSuffix
      metaNspace := some u.nspace
      ofApiVersion := u.apiVersion
      ofKind := u.kind
      ofName := u.name
      reason := reason }

/-- Embeds `GenerateV1Usage` (src/fn.go lines 420-442): a legacy-schema guard
record under the shared extensions API group.  Only cluster-scoped records
are supported: the metadata never carries a namespace field. -/
def GenerateV1Usage (u : Resource) (reason : String) : UsageDoc :=
  let name := strToLower (u.kind ++ "-" ++ u.name)
  { apiVersion := ProtectionV1GroupVersion
    kind := V1UsageKind
    metaName := GenerateName name UsageNameSuffix
    metaNspace := none
    ofApiVersion := u.apiVersion
    ofKind := u.kind
    ofName := u.name
    reason := reason }

/-- Embeds `GenerateUsage` (src/fn.go lines 380-386): schema selection by the
legacy-mode flag. -/
def GenerateUsage (u : Resource) (reason : String) (createV1Usages : Bool) : UsageDoc :=
  if createV1Usages then GenerateV1Usage u reason else GenerateV2Usage u reason

/-- A value of the desired-composed map: either an ordinary resource already
in the desired set, or a guard record inserted by this engine (in Go both
live in the same `map[resource.Name]*resource.DesiredComposed`; a converted
usage document carries no labels, which `valueProtected` reflects). -/
inductive DesiredValue where
  | res : Resource → DesiredValue
  | usage : UsageDoc → DesiredValue
deriving DecidableEq, Repr

/-- Protection check applied to a desired-map value, as `ProtectResource`
acts on it: a generated usage document has no labels map, hence is never
protected. -/
def valueProtected : DesiredValue → Bool
  | .res r => ProtectResource (some r)
  | .usage _ => false

/-- The desired-composed map, keyed by resource name. -/
def DMap : Type := String → Option DesiredValue

/-- The observed-composed map. -/
def OMap : Type := String → Option Resource

/-- Map update (Go `m[k] = v`). -/
def mapUpdate (m : DMap) (k : String) (v : DesiredValue) : DMap :=
  fun k' => if k' = k then some v else m k'

/-- Embeds the composed-resource pass of `RunFunction` (src/fn.go lines
271-289), iterating the keys of the desired-composed map in the order given
by `ks` (Go map order is unspecified).  For each visited key with an
observed counterpart, if the desired value at visit time or the observed
resource is protected, a guard record generated from the observed resource
with the label reason is stored under `key ++ "-usage"` and the count is
incremented. -/
def composedPass (v1 : Bool) (obs : OMap) : List String → DMap → Nat → DMap × Nat
  | [], m, c => (m, c)
  | k :: ks, m, c =>
    match obs k with
    | some o =>
      let desiredProtected := match m k with
        | some v => valueProtected v
        | none => false
      if desiredProtected || ProtectResource (some o) then
        composedPass v1 obs ks
          (mapUpdate m (k ++ "-usage") (.usage (GenerateUsage o ProtectionReasonLabel v1)))
          (c + 1)
      else composedPass v1 obs ks m c
    | none => composedPass v1 obs ks m c

/-- Key under which the composite's guard record is stored:
`strings.ToLower("xr-" + name + "-usage")` (src/fn.go line 308). -/
def xrUsageKey (obsComposite : Resource) : String :=
  strToLower ("xr-" ++ obsComposite.name ++ "-usage")

/-- Embeds the composite cascade step of `RunFunction` (src/fn.go lines
294-312): if the observed or desired composite is labeled, or at least one
composed resource was protected, a guard record for the composite is
generated from the observed composite — with the child-resource reason when
the count is positive, the label reason otherwise — and stored under the
`xr-<name>-usage` key, incrementing the count. -/
def compositeStep (v1 : Bool) (desC obsC : Resource) (m : DMap) (c : Nat) : DMap × Nat :=
  if ProtectResource (some obsC) || ProtectResource (some desC) || decide (0 < c) then
    let reason := if 0 < c then ProtectionReasonCompositeChildResource else ProtectionReasonLabel
    (mapUpdate m (xrUsageKey obsC) (.usage (GenerateUsage obsC reason v1)), c + 1)
  else (m, c)

/-- The composed-pass plus composite-cascade portion of `RunFunction`
(src/fn.go lines 271-312): phase 1 over the composed resources, then the
cascade decision for the composite.  The required-resource pass
(`ProtectRequiredResources`) is a separate function in the source and is
embedded separately below. -/
def RunFunctionCore (v1 : Bool) (desC obsC : Resource) (m : DMap) (obs : OMap)
    (ks : List String) : DMap × Nat :=
  let p := composedPass v1 obs ks m 0
  compositeStep v1 desC obsC p.1 p.2

/-- Key under which a required resource's guard record is stored:
`fmt.Sprintf("%s-%s-%s-required-resource-fn-protection", kind, name, namespace)`
(src/fn.go line 372). -/
def requiredUsageKey (r : Resource) : String :=
  r.kind ++ "-" ++ r.name ++ "-" ++ r.nspace ++ "-required-resource-fn-protection"

/-- Go map store on an association list: overwrite the value when the key is
present, append otherwise. -/
def assocUpsert (dc : List (String × UsageDoc)) (k : String) (v : UsageDoc) :
    List (String × UsageDoc) :=
  if dc.any (fun p => p.1 == k) then
    dc.map (fun p => if p.1 == k then (k, v) else p)
  else dc ++ [(k, v)]

/-- Embeds `ProtectRequiredResources` (src/fn.go lines 356-378): for each
requirement group and each resource in it, if the group identifier is the
watched-resource marker or the resource is labeled, a v2 guard record is
stored under the required-resource key, with the watch reason for the
watched group and the operation reason otherwise. -/
def ProtectRequiredResources (rr : List (String × List Resource)) :
    List (String × UsageDoc) :=
  rr.foldl
    (fun dc p =>
      p.2.foldl
        (fun dc r =>
          if p.1 = RequirementsNameWatchedResource || ProtectResource (some r) then
            let reason :=
              if p.1 = RequirementsNameWatchedResource then ProtectionReasonWatchOperation
              else ProtectionReasonOperation
            assocUpsert dc (requiredUsageKey r) (GenerateV2Usage r reason)
          else dc)
        dc)
    []

/-- Written from the spec's words (§4.1), for comparison with the
source-translated `ProtectResource`: protected iff the resource is present,
its labels mapping is present, the enabling key is present in it, and the
value case-insensitively equals "true". -/
def isProtectedSpec (u : Option Resource) : Bool :=
  match u with
  | none => false
  | some r =>
    match r.labels with
    | none => false
    | some ls =>
      match ls.lookup ProtectionLabelBlockDeletion with
      | none => false
      | some v => eqFold v "true"

/-- A sample resource carrying the enabling label with value `v`. -/
def mkLabeled (v : String) : Resource :=
  { apiVersion := "test.crossplane.io/v1", kind := "TestComposed", name := "sample",
    nspace := "", labels := some [(ProtectionLabelBlockDeletion, v)], extra := [] }

/-- Eligibility of a key in the composed pass, as a function of the initial
desired map and the observed map: the key must be observed, and the desired
value or the observed resource must be protected. -/
def passEligible (m₀ : DMap) (obs : OMap) (k : String) : Bool :=
  match obs k with
  | some o =>
    (match m₀ k with | some v => valueProtected v | none => false)
      || ProtectResource (some o)
  | none => false

/-- The guard record the composed pass stores for an eligible key (generated
from the observed resource with the label reason). -/
def passValue (v1 : Bool) (obs : OMap) (k : String) : Option DesiredValue :=
  match obs k with
  | some o => some (.usage (GenerateUsage o ProtectionReasonLabel v1))
  | none => none

/-- An observed map with no entries. -/
def obsEmpty : OMap := fun _ => none

/-- A small desired map used in witnesses. -/
def mWitness : DMap :=
  fun k => if k = "a" then some (.res (mkLabeled "true")) else none

/-- Concrete fixture: an unlabeled composed resource under key `a`. -/
def cexResA : Resource :=
  { apiVersion := "test.crossplane.io/v1", kind := "TestComposed", name := "a-res",
    nspace := "", labels := none, extra := [] }

/-- Concrete fixture: a labeled composed resource sitting under key
`a-usage` of the initial desired map. -/
def cexResB : Resource :=
  { apiVersion := "test.crossplane.io/v1", kind := "TestComposed", name := "b-res",
    nspace := "", labels := some [(ProtectionLabelBlockDeletion, "true")], extra := [] }

/-- Concrete fixture: the labeled observed counterpart of key `a`. -/
def cexObsA : Resource :=
  { apiVersion := "test.crossplane.io/v1", kind := "TestComposed", name := "a-res",
    nspace := "", labels := some [(ProtectionLabelBlockDeletion, "true")], extra := [] }

/-- Concrete fixture: the unlabeled observed counterpart of key `a-usage`. -/
def cexObsB : Resource :=
  { apiVersion := "test.crossplane.io/v1", kind := "TestComposed", name := "b-res",
    nspace := "", labels := none, extra := [] }

/-- Concrete fixture: an unlabeled composite resource. -/
def cexXR : Resource :=
  { apiVersion := "test.crossplane.io/v1", kind := "TestXR", name := "xr1",
    nspace := "", labels := none, extra := [] }

/-- Concrete fixture: a desired map whose key `a-usage` collides with the
guard-record key the engine derives for key `a`. -/
def cexM : DMap :=
  fun k =>
    if k = "a" then some (.res cexResA)
    else if k = "a-usage" then some (.res cexResB)
    else none

/-- Concrete fixture: the observed map for `cexM`. -/
def cexObs : OMap :=
  fun k =>
    if k = "a" then some cexObsA
    else if k = "a-usage" then some cexObsB
    else none

/- ### Helper lemmas -/

theorem strToLower_append (a b : String) :
    strToLower (a ++ b) = strToLower a ++ strToLower b := by
  cases a with
  | mk da =>
    cases b with
    | mk db =>
      show String.mk ((da ++ db).map asciiLower)
          = String.mk (da.map asciiLower) ++ String.mk (db.map asciiLower)
      rw [show ∀ x y : List Char, String.mk x ++ String.mk y = String.mk (x ++ y)
            from fun x y => rfl]
      rw [List.map_append]

theorem string_append_right_cancel {a b c : String} (h : a ++ c = b ++ c) : a = b := by
  cases a with
  | mk da =>
    cases b with
    | mk db =>
      cases c with
      | mk dc =>
        have h2 : da ++ dc = db ++ dc := congrArg String.data h
        exact congrArg String.mk (List.append_cancel_right h2)

theorem toHexFixed_length (w n : Nat) : (toHexFixed w n).length = w := by
  induction w generalizing n with
  | zero => rfl
  | succ w ih => simp [toHexFixed, ih]

theorem shortHash_length (s : String) : (shortHash s).length = 6 := by
  show (toHexFixed 6 (fnv1a s / 256)).length = 6
  exact toHexFixed_length 6 _

/- ### C2 — the protection predicate -/

/-- C2: `ProtectResource` returns true iff the resource is present, carries a
labels mapping in which the enabling key is present, and the value
case-insensitively equals "true" (the spec-side predicate `isProtectedSpec`
states exactly this); in particular it is true for label values "true",
"True", "TRUE" and false for an absent resource, absent labels, an absent
key, and the values "false", "1", and "". -/
theorem protectResource_characterization :
    (∀ u : Option Resource, ProtectResource u = isProtectedSpec u) ∧
    (∀ r : Resource, ∀ v : String,
      ProtectResource (some { r with labels := some [(ProtectionLabelBlockDeletion, v)] })
        = eqFold v "true") ∧
    ProtectResource none = false ∧
    (∀ r : Resource, ProtectResource (some { r with labels := none }) = false) ∧
    (∀ r : Resource, ProtectResource (some { r with labels := some [] }) = false) ∧
    (∀ r : Resource, ∀ v : String,
      ProtectResource (some { r with labels := some [("other.example.io/key", v)] }) = false) ∧
    ProtectResource (some (mkLabeled "true")) = true ∧
    ProtectResource (some (mkLabeled "True")) = true ∧
    ProtectResource (some (mkLabeled "TRUE")) = true ∧
    ProtectResource (some (mkLabeled "false")) = false ∧
    ProtectResource (some (mkLabeled "1")) = false ∧
    ProtectResource (some (mkLabeled "")) = false := by
  refine ⟨?_, ?_, rfl, ?_, ?_, ?_, by decide, by decide, by decide, by decide, by decide, by decide⟩
  · intro u
    match u with
    | none => rfl
    | some r =>
      match h : r.labels with
      | none => simp [ProtectResource, isProtectedSpec, GetLabels, h]
      | some ls =>
        simp only [ProtectResource, isProtectedSpec, GetLabels, h, Option.getD_some]
        cases List.lookup ProtectionLabelBlockDeletion ls <;> rfl
  · intro r v
    simp [ProtectResource, GetLabels, List.lookup]
  · intro r
    simp [ProtectResource, GetLabels, List.lookup]
  · intro r
    simp [ProtectResource, GetLabels, List.lookup]
  · intro r v
    have hne : (ProtectionLabelBlockDeletion == "other.example.io/key") = false := by decide
    simp [ProtectResource, GetLabels, List.lookup, hne]

/- ### C4 — scope resolution of the current schema -/

/-- C4: under the current schema, an empty namespace always yields the
cluster-scoped guard-record kind with no namespace field, and a non-empty
namespace always yields the namespaced kind with the namespace copied
verbatim into the record's metadata; never both. -/
theorem generateV2Usage_scope (u : Resource) (reason : String) :
    (GenerateV2Usage u reason).kind
        = (if u.nspace = "" then ClusterUsageKind else UsageKind) ∧
    (GenerateV2Usage u reason).metaNspace
        = (if u.nspace = "" then none else some u.nspace) := by
  unfold GenerateV2Usage
  split <;> simp_all

/- ### C10 — the synthesizer reads only the identity of the target -/

/-- C10: two target resources agreeing on apiVersion, kind, name and
namespace receive identical guard records from `GenerateUsage` for the same
reason and mode flag; labels and all other content (`extra`) never influence
any field of the record. -/
theorem generateUsage_identity_only (r₁ r₂ : Resource) (reason : String) (v1 : Bool)
    (hA : r₁.apiVersion = r₂.apiVersion) (hK : r₁.kind = r₂.kind)
    (hN : r₁.name = r₂.name) (hS : r₁.nspace = r₂.nspace) :
    GenerateUsage r₁ reason v1 = GenerateUsage r₂ reason v1 := by
  cases r₁
  cases r₂
  simp only at hA hK hN hS
  subst hA hK hN hS
  rfl

/-- Witness for C10 at concrete inputs: a labeled resource with extra content
and a bare resource with the same identity yield the same guard record. -/
theorem generateUsage_identity_only_witness :
    GenerateUsage
        { apiVersion := "test.crossplane.io/v1", kind := "TestComposed", name := "n",
          nspace := "ns", labels := some [(ProtectionLabelBlockDeletion, "true")],
          extra := [("spec.field", "value")] } "r" false
      = GenerateUsage
        { apiVersion := "test.crossplane.io/v1", kind := "TestComposed", name := "n",
          nspace := "ns", labels := none, extra := [] } "r" false :=
  generateUsage_identity_only _ _ _ _ rfl rfl rfl rfl

/- ### C1 — composite cascade -/

/-- C1: after the composed-resource pass completes, a guard record for the
composite is synthesized (stored under the `xr-<name>-usage` key, with the
count incremented) iff the observed composite is labeled, the desired
composite is labeled, or at least one composed resource was protected in the
pass; its reason is the child-resource reason whenever the pass protected at
least one child (regardless of any composite label), and the label reason
otherwise.  Stated as exact equations on both components of
`RunFunctionCore`. -/
theorem runFunctionCore_composite_cascade (v1 : Bool) (desC obsC : Resource)
    (m : DMap) (obs : OMap) (ks : List String) :
    (RunFunctionCore v1 desC obsC m obs ks).2
        = (if ProtectResource (some obsC) || ProtectResource (some desC)
              || decide (0 < (composedPass v1 obs ks m 0).2)
           then (composedPass v1 obs ks m 0).2 + 1
           else (composedPass v1 obs ks m 0).2) ∧
    (RunFunctionCore v1 desC obsC m obs ks).1 (xrUsageKey obsC)
        = (if ProtectResource (some obsC) || ProtectResource (some desC)
              || decide (0 < (composedPass v1 obs ks m 0).2)
           then some (.usage (GenerateUsage obsC
              (if 0 < (composedPass v1 obs ks m 0).2
               then ProtectionReasonCompositeChildResource
               else ProtectionReasonLabel) v1))
           else (composedPass v1 obs ks m 0).1 (xrUsageKey obsC)) := by
  by_cases hc : (ProtectResource (some obsC) || ProtectResource (some desC)
      || decide (0 < (composedPass v1 obs ks m 0).2)) = true
  · simp only [RunFunctionCore, compositeStep, hc, if_true, mapUpdate, if_pos rfl]
    exact ⟨trivial, trivial⟩
  · simp only [RunFunctionCore, compositeStep, Bool.not_eq_true] at hc ⊢
    simp only [hc, Bool.false_eq_true, if_false]
    exact ⟨trivial, trivial⟩

/- ### C3 — required-resource pass -/

/-- C3: `ProtectRequiredResources` synthesizes a guard record for every
resource of the watched-resource group unconditionally — the branch taken
when the group identifier is the watched marker performs no label check and
uses the watch reason — while a resource of any other group yields a record
iff `ProtectResource` holds for it, with the operation reason.  Stated as an
equality between the source-translated function and the nested-conditional
form that makes the claim's case split explicit. -/
theorem protectRequiredResources_characterization (rr : List (String × List Resource)) :
    ProtectRequiredResources rr =
      rr.foldl
        (fun dc p =>
          p.2.foldl
            (fun dc r =>
              if p.1 = RequirementsNameWatchedResource then
                assocUpsert dc (requiredUsageKey r)
                  (GenerateV2Usage r ProtectionReasonWatchOperation)
              else if ProtectResource (some r) then
                assocUpsert dc (requiredUsageKey r)
                  (GenerateV2Usage r ProtectionReasonOperation)
              else dc)
            dc)
        [] := by
  unfold ProtectRequiredResources
  congr 1
  funext dc p
  congr 1
  funext dc r
  by_cases h : p.1 = RequirementsNameWatchedResource
  · simp [h]
  · by_cases h2 : ProtectResource (some r) <;> simp [h, h2]

/- ### C5 — legacy-mode toggle -/

/-- Cross-mode relation for the composed pass: starting from maps that agree
on the protection view of every key, running in legacy and current mode
yields equal counts and maps that again agree on the protection view. -/
theorem composedPass_mode_rel (obs : OMap) (ks : List String) :
    ∀ (m₁ m₂ : DMap) (c : Nat),
      (∀ k, (m₁ k).map valueProtected = (m₂ k).map valueProtected) →
      (composedPass true obs ks m₁ c).2 = (composedPass false obs ks m₂ c).2 ∧
      (∀ key, ((composedPass true obs ks m₁ c).1 key).map valueProtected
            = ((composedPass false obs ks m₂ c).1 key).map valueProtected) := by
  induction ks with
  | nil => exact fun m₁ m₂ c h => ⟨rfl, h⟩
  | cons k ks ih =>
    intro m₁ m₂ c h
    have hk := h k
    have hdec : (match m₁ k with | some v => valueProtected v | none => false)
              = (match m₂ k with | some v => valueProtected v | none => false) := by
      cases h1 : m₁ k <;> cases h2 : m₂ k <;>
        simp only [h1, h2, Option.map_some, Option.map_none] at hk ⊢ <;> simp_all
    cases ho : obs k with
    | none =>
      simp only [composedPass, ho]
      exact ih m₁ m₂ c h
    | some o =>
      simp only [composedPass, ho]
      rw [hdec]
      cases hcond : ((match m₂ k with | some v => valueProtected v | none => false)
          || ProtectResource (some o)) with
      | false =>
        simp only [hcond, Bool.false_eq_true, if_false]
        exact ih m₁ m₂ c h
      | true =>
        simp only [hcond, if_true]
        apply ih
        intro key
        by_cases hkey : key = k ++ "-usage"
        · simp [mapUpdate, hkey, valueProtected]
        · simpa [mapUpdate, hkey] using h key

/-- C5 counterexample: for a namespaced target resource, toggling the
legacy-mode flag changes more than apiVersion and kind — the record's
metadata namespace field also changes (the legacy schema never carries
one), contradicting the claim that the metadata including any namespace
field is identical between modes. -/
theorem generateUsage_mode_changes_namespace_field :
    (GenerateUsage
        { apiVersion := "test.crossplane.io/v1", kind := "TestResource", name := "res1",
          nspace := "test-namespace", labels := none, extra := [] }
        ProtectionReasonLabel true).metaNspace
      ≠ (GenerateUsage
        { apiVersion := "test.crossplane.io/v1", kind := "TestResource", name := "res1",
          nspace := "test-namespace", labels := none, extra := [] }
        ProtectionReasonLabel false).metaNspace := by
  decide

/-- C5 (amended): toggling the legacy-mode flag changes only the apiVersion,
the kind, and — for namespaced targets — the metadata namespace field, which
the legacy schema always omits (it supports only cluster-scoped records);
the spec.of reference, the spec.reason, the metadata name, and the set of
which resources get protected (the count and the domain of the desired map)
are identical between legacy mode and current mode. -/
theorem generateUsage_mode_isolation :
    (∀ (u : Resource) (reason : String),
      (GenerateUsage u reason true).ofApiVersion = (GenerateUsage u reason false).ofApiVersion ∧
      (GenerateUsage u reason true).ofKind = (GenerateUsage u reason false).ofKind ∧
      (GenerateUsage u reason true).ofName = (GenerateUsage u reason false).ofName ∧
      (GenerateUsage u reason true).reason = (GenerateUsage u reason false).reason ∧
      (GenerateUsage u reason true).metaName = (GenerateUsage u reason false).metaName ∧
      (GenerateUsage u reason true).metaNspace = none) ∧
    (∀ (obs : OMap) (ks : List String) (m : DMap) (c : Nat),
      (composedPass true obs ks m c).2 = (composedPass false obs ks m c).2) ∧
    (∀ (obs : OMap) (ks : List String) (m : DMap) (c : Nat) (key : String),
      ((composedPass true obs ks m c).1 key).isSome
        = ((composedPass false obs ks m c).1 key).isSome) ∧
    (∀ (desC obsC : Resource) (m : DMap) (obs : OMap) (ks : List String),
      (RunFunctionCore true desC obsC m obs ks).2
        = (RunFunctionCore false desC obsC m obs ks).2) := by
  refine ⟨?_, ?_, ?_, ?_⟩
  · intro u reason
    unfold GenerateUsage GenerateV1Usage GenerateV2Usage
    by_cases h : u.nspace = "" <;> simp [h]
  · intro obs ks m c
    exact (composedPass_mode_rel obs ks m m c (fun _ => rfl)).1
  · intro obs ks m c key
    have h2 := congrArg Option.isSome ((composedPass_mode_rel obs ks m m c (fun _ => rfl)).2 key)
    simpa using h2
  · intro desC obsC m obs ks
    have hcount := (composedPass_mode_rel obs ks m m 0 (fun _ => rfl)).1
    by_cases hc : (ProtectResource (some obsC) || ProtectResource (some desC)
        || decide (0 < (composedPass false obs ks m 0).2)) = true
    · simp [RunFunctionCore, compositeStep, hcount, hc]
    · simp only [Bool.not_eq_true] at hc
      simp [RunFunctionCore, compositeStep, hcount, hc]

/- ### C6 — generated guard-record names -/

set_option maxRecDepth 8192 in
/-- C6 counterexample: two target resources sharing kind and name but
differing in namespace receive the SAME generated guard-record name — the
name generator is only ever applied to the lowercased kind-name string, so
no digest over the namespace can be involved (the repo's own tests expect
the same 6-character hash with and without a namespace); this contradicts
the claim that such resources receive different generated names. -/
theorem generateV2Usage_name_namespace_collision :
    (GenerateV2Usage
        { apiVersion := "test.crossplane.io/v1", kind := "TestResource",
          name := "test-watched-resource", nspace := "", labels := none, extra := [] }
        ProtectionReasonWatchOperation).metaName
      = (GenerateV2Usage
        { apiVersion := "test.crossplane.io/v1", kind := "TestResource",
          name := "test-watched-resource", nspace := "test-namespace", labels := none,
          extra := [] }
        ProtectionReasonWatchOperation).metaName := by
  decide

/-- C6 (amended): the generated guard-record name equals
`lower(kind) ++ "-" ++ lower(name) ++ "-" ++ shortHash ++ "-" ++ suffix`,
where the fixed-width 6-character stable digest is computed over the
lowercased kind-name string only — not over the namespace — so two target
resources sharing kind and name but differing in namespace receive the same
generated name (they are distinguished by the record's namespace field and
map key instead). -/
theorem generateV2Usage_name (u : Resource) (reason ns' : String) :
    (GenerateV2Usage u reason).metaName
        = strToLower u.kind ++ "-" ++ strToLower u.name ++ "-"
          ++ shortHash (strToLower (u.kind ++ "-" ++ u.name)) ++ "-" ++ UsageNameSuffix ∧
    (shortHash (strToLower (u.kind ++ "-" ++ u.name))).length = 6 ∧
    (GenerateV2Usage { u with nspace := ns' } reason).metaName
        = (GenerateV2Usage u reason).metaName := by
  refine ⟨?_, shortHash_length _, ?_⟩
  · have hsplit : strToLower (u.kind ++ "-" ++ u.name)
        = strToLower u.kind ++ "-" ++ strToLower u.name := by
      rw [strToLower_append, strToLower_append]
      rfl
    unfold GenerateV2Usage GenerateName
    by_cases h : u.nspace = "" <;> simp [h, hsplit]
  · unfold GenerateV2Usage GenerateName
    by_cases h1 : ns' = "" <;> by_cases h2 : u.nspace = "" <;> simp [h1, h2]

/- ### C7 — desired-only resources are skipped -/

/-- C7: in the composed-resource pass, a key with no observed counterpart is
a no-op wherever it occurs in the traversal — removing it from the key list
changes nothing — and no guard record ever appears under its derived
`-usage` key, for every desired map (hence every label configuration) and
every traversal. -/
theorem composedPass_skips_desired_only (v1 : Bool) (obs : OMap) (k : String)
    (hk : obs k = none) :
    (∀ (m : DMap) (c : Nat) (ks₁ ks₂ : List String),
      composedPass v1 obs (ks₁ ++ k :: ks₂) m c = composedPass v1 obs (ks₁ ++ ks₂) m c) ∧
    (∀ (ks : List String) (m : DMap) (c : Nat),
      (composedPass v1 obs ks m c).1 (k ++ "-usage") = m (k ++ "-usage")) := by
  constructor
  · intro m c ks₁ ks₂
    induction ks₁ generalizing m c with
    | nil =>
      simp only [List.nil_append, composedPass, hk]
    | cons j ks₁ ih =>
      simp only [List.cons_append, composedPass]
      cases ho : obs j with
      | none => exact ih m c
      | some o =>
        cases hcond : ((match m j with | some v => valueProtected v | none => false)
            || ProtectResource (some o)) with
        | false => simp only [hcond, Bool.false_eq_true, if_false]; exact ih m c
        | true => simp only [hcond, if_true]; exact ih _ _
  · intro ks
    induction ks with
    | nil => intro m c; rfl
    | cons j ks ih =>
      intro m c
      simp only [composedPass]
      cases ho : obs j with
      | none => exact ih m c
      | some o =>
        cases hcond : ((match m j with | some v => valueProtected v | none => false)
            || ProtectResource (some o)) with
        | false => simp only [hcond, Bool.false_eq_true, if_false]; exact ih m c
        | true =>
          simp only [hcond, if_true]
          rw [ih]
          have hne : k ++ "-usage" ≠ j ++ "-usage" := by
            intro heq
            have : k = j := string_append_right_cancel heq
            rw [this, ho] at hk
            exact Option.noConfusion hk
          simp [mapUpdate, hne]

/-- Witness for C7 at concrete inputs: with an empty observed map, visiting
key `a` is a no-op and leaves the `a-usage` key of the desired map
untouched. -/
theorem composedPass_skips_desired_only_witness :
    (composedPass false obsEmpty (["b"] ++ "a" :: []) mWitness 0
       = composedPass false obsEmpty (["b"] ++ []) mWitness 0) ∧
    ((composedPass false obsEmpty ["b", "a"] mWitness 0).1 ("a" ++ "-usage")
       = mWitness ("a" ++ "-usage")) :=
  ⟨(composedPass_skips_desired_only false obsEmpty "a" rfl).1 mWitness 0 ["b"] [],
   (composedPass_skips_desired_only false obsEmpty "a" rfl).2 ["b", "a"] mWitness 0⟩

/- ### C9 — frame property of the engine -/

/-- The composed pass leaves every key untouched that is not the derived
`-usage` key of a visited key. -/
theorem composedPass_untouched (v1 : Bool) (obs : OMap) (key : String) :
    ∀ (ks : List String) (m : DMap) (c : Nat),
      (∀ j ∈ ks, key ≠ j ++ "-usage") →
      (composedPass v1 obs ks m c).1 key = m key := by
  intro ks
  induction ks with
  | nil => intro m c _; rfl
  | cons j ks ih =>
    intro m c h
    simp only [composedPass]
    cases ho : obs j with
    | none => exact ih m c (fun x hx => h x (List.mem_cons_of_mem _ hx))
    | some o =>
      cases hcond : ((match m j with | some v => valueProtected v | none => false)
          || ProtectResource (some o)) with
      | false =>
        simp only [hcond, Bool.false_eq_true, if_false]
        exact ih m c (fun x hx => h x (List.mem_cons_of_mem _ hx))
      | true =>
        simp only [hcond, if_true]
        rw [ih _ _ (fun x hx => h x (List.mem_cons_of_mem _ hx))]
        have hne : key ≠ j ++ "-usage" := h j (List.mem_cons_self j ks)
        simp [mapUpdate, hne]

set_option maxRecDepth 8192 in
/-- C9 counterexample: the engine can overwrite a pre-existing entry of the
desired-composed map — when the initial map already holds an entry under the
very key the engine derives for a protected sibling (`a` protected, entry
pre-existing under `a-usage`), that entry is replaced by the synthesized
guard record, contradicting the claim that every pre-existing key-value pair
is present unchanged in the result. -/
theorem runFunctionCore_overwrites_existing_entry :
    cexM "a-usage" = some (.res cexResB) ∧
    (RunFunctionCore false cexXR cexXR cexM cexObs ["a"]).1 "a-usage"
      ≠ some (.res cexResB) := by
  constructor
  · decide
  · decide

/-- C9 (amended): the engine only inserts guard records under the derived
keys — `j ++ "-usage"` for a visited composed key `j`, and the composite's
`xr-<name>-usage` key; every key of the desired-composed map that is not of
that derived form keeps its initial value unchanged (so pre-existing entries
are only lost when a derived key collides with them, as the counterexample
shows). -/
theorem runFunctionCore_frame (v1 : Bool) (desC obsC : Resource) (m : DMap)
    (obs : OMap) (ks : List String) (key : String)
    (h1 : ∀ j ∈ ks, key ≠ j ++ "-usage") (h2 : key ≠ xrUsageKey obsC) :
    (RunFunctionCore v1 desC obsC m obs ks).1 key = m key := by
  have hpass := composedPass_untouched v1 obs key ks m 0 h1
  by_cases hc : (ProtectResource (some obsC) || ProtectResource (some desC)
      || decide (0 < (composedPass v1 obs ks m 0).2)) = true
  · simp only [RunFunctionCore, compositeStep, hc, if_true]
    rw [show ∀ v, mapUpdate (composedPass v1 obs ks m 0).1 (xrUsageKey obsC) v key
        = (composedPass v1 obs ks m 0).1 key from fun v => by simp [mapUpdate, h2]]
    exact hpass
  · simp only [Bool.not_eq_true] at hc
    simp only [RunFunctionCore, compositeStep, hc, Bool.false_eq_true, if_false]
    exact hpass

/-- Witness for C9 (amended) at concrete inputs: a key that is not of the
derived form keeps its value across the run. -/
theorem runFunctionCore_frame_witness :
    (RunFunctionCore false cexXR cexXR cexM cexObs ["a"]).1 "a" = cexM "a" :=
  runFunctionCore_frame false cexXR cexXR cexM cexObs ["a"] "a"
    (by decide) (by decide)

/- ### C8 — traversal-order dependence of the composed pass -/

/-- Canonical form of the composed pass: when no visited key is the derived
`-usage` key of a visited key, the pass reads every desired value from the
initial map, so the final count is the number of eligible keys and the final
map is the initial map overridden at the derived keys of eligible keys. -/
theorem composedPass_canonical (v1 : Bool) (obs : OMap) (m₀ : DMap) :
    ∀ (ks : List String) (m : DMap) (c : Nat),
      (∀ x ∈ ks, m x = m₀ x) →
      (∀ j ∈ ks, ∀ x ∈ ks, x ≠ j ++ "-usage") →
      (composedPass v1 obs ks m c).2 = c + (ks.filter (passEligible m₀ obs)).length ∧
      (∀ key, (composedPass v1 obs ks m c).1 key =
        match ks.find? (fun j => passEligible m₀ obs j && (key == j ++ "-usage")) with
        | some j => passValue v1 obs j
        | none => m key) := by
  intro ks
  induction ks with
  | nil =>
    intro m c _ _
    exact ⟨by simp [composedPass], fun key => by simp [composedPass, List.find?]⟩
  | cons k ks ih =>
    intro m c hagree hnc
    have hmk : m k = m₀ k := hagree k (List.mem_cons_self k ks)
    have hagree' : ∀ x ∈ ks, m x = m₀ x :=
      fun x hx => hagree x (List.mem_cons_of_mem _ hx)
    have hnc' : ∀ j ∈ ks, ∀ x ∈ ks, x ≠ j ++ "-usage" :=
      fun j hj x hx => hnc j (List.mem_cons_of_mem _ hj) x (List.mem_cons_of_mem _ hx)
    cases ho : obs k with
    | none =>
      have helig : passEligible m₀ obs k = false := by simp [passEligible, ho]
      simp only [composedPass, ho]
      have ihres := ih m c hagree' hnc'
      refine ⟨?_, ?_⟩
      · rw [ihres.1]
        simp [List.filter_cons, helig]
      · intro key
        rw [ihres.2 key]
        have hpred : ((fun j => passEligible m₀ obs j && (key == j ++ "-usage")) k) = false := by
          simp [helig]
        rw [List.find?_cons_of_neg _ (by simp [hpred])]
    | some o =>
      have hdec : ((match m k with | some v => valueProtected v | none => false)
          || ProtectResource (some o)) = passEligible m₀ obs k := by
        simp [passEligible, ho, hmk]
      simp only [composedPass, ho]
      rw [hdec]
      cases helig : passEligible m₀ obs k with
      | false =>
        simp only [Bool.false_eq_true, if_false]
        have ihres := ih m c hagree' hnc'
        refine ⟨?_, ?_⟩
        · rw [ihres.1]
          simp [List.filter_cons, helig]
        · intro key
          rw [ihres.2 key]
          have hpred : ((fun j => passEligible m₀ obs j && (key == j ++ "-usage")) k) = false := by
            simp [helig]
          rw [List.find?_cons_of_neg _ (by simp [hpred])]
      | true =>
        simp only [if_true]
        have hagree2 : ∀ x ∈ ks,
            mapUpdate m (k ++ "-usage")
              (.usage (GenerateUsage o ProtectionReasonLabel v1)) x = m₀ x := by
          intro x hx
          have hxne : x ≠ k ++ "-usage" :=
            hnc k (List.mem_cons_self k ks) x (List.mem_cons_of_mem _ hx)
          rw [show mapUpdate m (k ++ "-usage")
              (.usage (GenerateUsage o ProtectionReasonLabel v1)) x = m x by
            simp [mapUpdate, hxne]]
          exact hagree' x hx
        have ihres := ih _ (c + 1) hagree2 hnc'
        refine ⟨?_, ?_⟩
        · rw [ihres.1]
          simp only [List.filter_cons, helig, if_true, List.length_cons]
          omega
        · intro key
          rw [ihres.2 key]
          by_cases hkey : key = k ++ "-usage"
          · have hpred : ((fun j => passEligible m₀ obs j && (key == j ++ "-usage")) k) = true := by
              simp [helig, hkey]
            rw [List.find?_cons_of_pos _ (by simp [hpred])]
            cases hf : ks.find? (fun j => passEligible m₀ obs j && (key == j ++ "-usage")) with
            | some j =>
              have hpj := List.find?_some hf
              simp only [Bool.and_eq_true, beq_iff_eq] at hpj
              have hjk : j = k := string_append_right_cancel (hkey ▸ hpj.2.symm)
              rw [hjk]
            | none =>
              simp [mapUpdate, hkey, passValue, ho]
          · have hpred : ((fun j => passEligible m₀ obs j && (key == j ++ "-usage")) k) = false := by
              simp [hkey]
            rw [List.find?_cons_of_neg _ (by simp [hpred])]
            cases hf : ks.find? (fun j => passEligible m₀ obs j && (key == j ++ "-usage")) with
            | some j => rfl
            | none => simp [mapUpdate, hkey]

set_option maxRecDepth 8192 in
/-- C8 counterexample: two traversal orders of the same key set — the lists
are permutations of one another — produce different protection counts (1
versus 2) and hence different results, because the guard-record key derived
for the protected key `a` collides with the pre-existing key `a-usage`
whose desired value is labeled: visiting `a` first overwrites that labeled
entry before it is examined. -/
theorem composedPass_order_dependent :
    (["a", "a-usage"] : List String).Perm ["a-usage", "a"] ∧
    (composedPass false cexObs ["a", "a-usage"] cexM 0).2 = 1 ∧
    (composedPass false cexObs ["a-usage", "a"] cexM 0).2 = 2 ∧
    (composedPass false cexObs ["a", "a-usage"] cexM 0).2
      ≠ (composedPass false cexObs ["a-usage", "a"] cexM 0).2 :=
  ⟨List.Perm.swap "a-usage" "a" [], by decide, by decide, by decide⟩

/-- C8 (amended): permuting the traversal order of the composed keys never
changes the final count or the final map, provided no visited key is the
derived `-usage` key of a visited key (without that proviso the claim fails,
as the counterexample shows). -/
theorem composedPass_order_independent (v1 : Bool) (obs : OMap) (m₀ : DMap)
    (ks₁ ks₂ : List String) (c : Nat)
    (hperm : ks₁.Perm ks₂)
    (hnc : ∀ j ∈ ks₁, ∀ x ∈ ks₁, x ≠ j ++ "-usage") :
    (composedPass v1 obs ks₁ m₀ c).2 = (composedPass v1 obs ks₂ m₀ c).2 ∧
    ∀ key, (composedPass v1 obs ks₁ m₀ c).1 key = (composedPass v1 obs ks₂ m₀ c).1 key := by
  have hnc₂ : ∀ j ∈ ks₂, ∀ x ∈ ks₂, x ≠ j ++ "-usage" :=
    fun j hj x hx => hnc j (hperm.mem_iff.mpr hj) x (hperm.mem_iff.mpr hx)
  have h₁ := composedPass_canonical v1 obs m₀ ks₁ m₀ c (fun _ _ => rfl) hnc
  have h₂ := composedPass_canonical v1 obs m₀ ks₂ m₀ c (fun _ _ => rfl) hnc₂
  constructor
  · rw [h₁.1, h₂.1, (hperm.filter _).length_eq]
  · intro key
    rw [h₁.2 key, h₂.2 key]
    cases hf₁ : ks₁.find? (fun j => passEligible m₀ obs j && (key == j ++ "-usage")) with
    | some j₁ =>
      have hp₁ := List.find?_some hf₁
      simp only [Bool.and_eq_true, beq_iff_eq] at hp₁
      cases hf₂ : ks₂.find? (fun j => passEligible m₀ obs j && (key == j ++ "-usage")) with
      | some j₂ =>
        have hp₂ := List.find?_some hf₂
        simp only [Bool.and_eq_true, beq_iff_eq] at hp₂
        have : j₁ = j₂ := string_append_right_cancel (hp₁.2 ▸ hp₂.2)
        rw [this]
      | none =>
        have hmem := List.mem_of_find?_eq_some hf₁
        have hnone := List.find?_eq_none.mp hf₂ j₁ (hperm.mem_iff.mp hmem)
        rw [List.find?_some hf₁] at hnone
        exact absurd rfl hnone
    | none =>
      cases hf₂ : ks₂.find? (fun j => passEligible m₀ obs j && (key == j ++ "-usage")) with
      | some j₂ =>
        have hmem := List.mem_of_find?_eq_some hf₂
        have hnone := List.find?_eq_none.mp hf₁ j₂ (hperm.mem_iff.mpr hmem)
        rw [List.find?_some hf₂] at hnone
        exact absurd rfl hnone
      | none => rfl

/-- Witness for C8 (amended) at concrete inputs: swapping two collision-free
keys leaves the protection count unchanged. -/
theorem composedPass_order_independent_witness :
    (composedPass false obsEmpty ["x", "y"] (fun _ => none) 0).2
      = (composedPass false obsEmpty ["y", "x"] (fun _ => none) 0).2 :=
  (composedPass_order_independent false obsEmpty (fun _ => none) ["x", "y"] ["y", "x"] 0
    (List.Perm.swap "y" "x" []) (by decide)).1

end FnProtect
